import Mathlib

/-!
Verification of the LangChain streaming adapter
(`packages/backend/src/lib/langchain-adapter.ts`).

The adapter takes the value returned by a caller-supplied LangChain function
and normalises it into a pull-driven byte stream of server-sent-event style
records.  We embed the adapter shallowly:

* the JSON/wire encoding of one chunk is a Lean function on the optional
  `content` string and optional function-call descriptor, reproducing
  `JSON.stringify` on the object literal built in the source (keys in
  insertion order, keys with `undefined` values omitted);
* the behaviour of `streamResult`'s `pull` loop and of
  `SingleChunkReadableStream.start` is modelled as the trace of primitive
  effects they perform, in program order: enqueueing a payload, signalling a
  stream error, closing the sink (`controller.close()`), and cancelling the
  upstream reader (`reader.cancel()`);
* the upstream `IterableReadableStream` reader is modelled as the sequence of
  outcomes its successive `read()` calls produce: a value, the end-of-sequence
  signal, or a rejection;
* `cleanup` is modelled in an exception monad, with the behaviour of the two
  host operations (`controller.close()`, `reader.cancel()`) supplied as
  arbitrary `Except` values, so that its error-swallowing is quantified over
  every possible host behaviour;
* `transformProps` is modelled over an explicit heap of arrays, so that the
  frame condition (the caller's original `messages` array is not mutated; the
  shallow copy shares the other fields) is expressible.
-/

/-- Errors carried by rejected promises / `controller.error`.  The adapter
never inspects them, so a plain string payload suffices. -/
abbrev Err := String

/-- A function-call descriptor (`name` + `arguments` blob) as it appears in
`lc_kwargs.function_call` / `additional_kwargs.function_call`. -/
structure FunctionCall where
  name : String
  arguments : String
deriving DecidableEq

/-- The `additional_kwargs` object of a message chunk; only the
`function_call` field is read by the adapter. -/
structure AdditionalKwargs where
  function_call : Option FunctionCall
deriving DecidableEq

/-- The `lc_kwargs` object of a `BaseMessageChunk`; the adapter reads
`content`, `function_call`, and `additional_kwargs.function_call`.
`none` models an absent / `undefined` field. -/
structure LcKwargs where
  content : Option String
  function_call : Option FunctionCall
  additional_kwargs : Option AdditionalKwargs
deriving DecidableEq

/-- A LangChain `BaseMessageChunk` as seen by the adapter: only its
`lc_kwargs` bag is accessed (through optional chaining, hence `Option`). -/
structure BaseMessageChunk where
  lc_kwargs : Option LcKwargs
deriving DecidableEq

/-- The optional-chaining access `value.lc_kwargs?.content` from `pull`. -/
def chunkContent (c : BaseMessageChunk) : Option String :=
  c.lc_kwargs.bind fun k => k.content

/-- The optional-chaining access
`value.lc_kwargs?.additional_kwargs?.function_call` from `pull`. -/
def chunkFunctionCall (c : BaseMessageChunk) : Option FunctionCall :=
  (c.lc_kwargs.bind fun k => k.additional_kwargs).bind fun a => a.function_call

/-- Lower-case hexadecimal digit, as produced by `JSON.stringify` for
control-character escapes. -/
def hexDigitChar (n : Nat) : Char :=
  if n < 10 then Char.ofNat (48 + n) else Char.ofNat (87 + n)

/-- How `JSON.stringify` escapes one character inside a string literal:
quote and backslash get a backslash escape, the five named control characters
get their short escapes, the remaining control characters get a `\u00XX`
escape, and every other character is passed through. -/
def jsonEscapeChar (c : Char) : String :=
  if c = '"' then "\\\""
  else if c = '\\' then "\\\\"
  else if c = Char.ofNat 8 then "\\b"
  else if c = Char.ofNat 9 then "\\t"
  else if c = Char.ofNat 10 then "\\n"
  else if c = Char.ofNat 12 then "\\f"
  else if c = Char.ofNat 13 then "\\r"
  else if c.toNat < 32 then
    "\\u00" ++ String.mk [hexDigitChar (c.toNat / 16), hexDigitChar (c.toNat % 16)]
  else String.singleton c

/-- `JSON.stringify` of a string value. -/
def jsonString (s : String) : String :=
  "\"" ++ String.join (s.data.map jsonEscapeChar) ++ "\""

/-- `JSON.stringify` of a function-call descriptor object
(insertion order: `name`, then `arguments`). -/
def functionCallJson (fc : FunctionCall) : String :=
  "\x7b\"name\":" ++ jsonString fc.name ++ ",\"arguments\":" ++ jsonString fc.arguments ++ "\x7d"

/-- `JSON.stringify` of the `delta` object literal built in the source:
`role` is always `"assistant"`; a `content` key is present exactly when the
content value is not `undefined`; a `function_call` key is spread in exactly
when a (truthy) function call is present. -/
def deltaJson (content : Option String) (functionCall : Option FunctionCall) : String :=
  "\x7b\"role\":\"assistant\"" ++
    (match content with
     | some c => ",\"content\":" ++ jsonString c
     | none => "") ++
    (match functionCall with
     | some fc => ",\"function_call\":" ++ functionCallJson fc
     | none => "") ++ "\x7d"

/-- `JSON.stringify` of the whole `ChatCompletionChunk` object literal. -/
def chunkJson (content : Option String) (functionCall : Option FunctionCall) : String :=
  "\x7b\"choices\":[\x7b\"delta\":" ++ deltaJson content functionCall ++ "\x7d]\x7d"

/-- One encoded content frame: `"data: " + JSON.stringify(chunk) + "\n\n"`,
UTF-8 encoded by `TextEncoder` (we keep the string; the encoding is the
identity on the code points involved). -/
def framePayload (content : Option String) (functionCall : Option FunctionCall) : String :=
  "data: " ++ chunkJson content functionCall ++ "\n\n"

/-- The terminal sentinel frame. -/
def doneFrame : String := "data: [DONE]\n\n"

/-- The content frame `pull` encodes for one upstream chunk `value`. -/
def chunkFrame (c : BaseMessageChunk) : String :=
  framePayload (chunkContent c) (chunkFunctionCall c)

/-- Primitive observable effects performed by the stream implementation, in
program order: enqueue a payload into the sink, signal a stream error to the
consumer (`controller.error`), close the sink (`controller.close()` inside
`cleanup`), cancel the upstream reader (`reader.cancel()` inside `cleanup`). -/
inductive Ev
  | enqueue (payload : String)
  | streamError (e : Err)
  | closeSink
  | cancelReader
deriving DecidableEq

/-- The frames a consumer pulls out of the stream: the enqueued payloads in
order. -/
def frames (t : List Ev) : List String :=
  t.filterMap fun e =>
    match e with
    | Ev.enqueue p => some p
    | _ => none

/-- Outcome of one `reader.read()` call on the upstream
`IterableReadableStream`: a chunk (`done:false`), end of sequence
(`done:true`), or a rejection. -/
inductive ReadResult
  | value (chunk : BaseMessageChunk)
  | done
  | failure (e : Err)

/-- The body of `streamResult`'s `pull`: a `while (true)` loop that reads
from the upstream reader; on `done` it enqueues the sentinel, runs `cleanup`
(close the sink, then cancel the reader) and returns; on a chunk it encodes
and enqueues one content frame and loops; on a read rejection it signals the
error to the consumer, runs `cleanup` and returns.  The trace lists the
effects in program order; outcomes after the terminating one are never read
(the loop has returned).  An upstream that never terminates (`[]` reached)
simply leaves the pull suspended, contributing no further effects. -/
def pullLoop : List ReadResult → List Ev
  | [] => []
  | ReadResult.done :: _ =>
      [Ev.enqueue doneFrame, Ev.closeSink, Ev.cancelReader]
  | ReadResult.failure e :: _ =>
      [Ev.streamError e, Ev.closeSink, Ev.cancelReader]
  | ReadResult.value c :: rest =>
      Ev.enqueue (chunkFrame c) :: pullLoop rest

/-- How an upstream stream terminates: a clean end-of-sequence signal, or a
rejected read. -/
inductive Terminator
  | eos
  | failure (e : Err)

/-- An upstream `IterableReadableStream`, described extensionally by the
chunks its reader yields and how it terminates afterwards. -/
structure Upstream where
  fragments : List BaseMessageChunk
  term : Terminator

/-- The sequence of outcomes successive `reader.read()` calls produce for a
given upstream. -/
def upstreamReads (u : Upstream) : List ReadResult :=
  u.fragments.map ReadResult.value ++
    [match u.term with
     | Terminator.eos => ReadResult.done
     | Terminator.failure e => ReadResult.failure e]

/-- The full effect trace of the output stream `streamResult` builds, when
the consumer keeps pulling until the stream settles. -/
def streamResultTrace (u : Upstream) : List Ev :=
  pullLoop (upstreamReads u)

/-- The point in the producer trace at which completion becomes observable to
the downstream consumer.  The `pull` callback resolves only after `cleanup`
has been awaited, and the consumer can observe end-of-stream only after it
has drained every enqueued frame and the close has taken effect; both come
after every effect in the trace, so the completion point is the trace's
length (one past the last producer event). -/
def consumerCompletionIndex (t : List Ev) : Nat := t.length

/-- The effect trace of `SingleChunkReadableStream`'s `start`: encode and
enqueue the single content frame (the `content` parameter defaults to `""`
when the argument is `undefined`, so the encoded delta always carries a
`content` key), enqueue the sentinel, close the controller.  All of this
happens on the stream's setup; the consumer's pulls then drain the two queued
frames and observe the close. -/
def singleChunkStart (content : Option String) (functionCall : Option FunctionCall) : List Ev :=
  [Ev.enqueue (framePayload (some (content.getD "")) functionCall),
   Ev.enqueue doneFrame,
   Ev.closeSink]

/-- A `try/catch` with an empty handler around a host operation: the
operation's failure is swallowed. -/
def tryIgnore (act : Except Err Unit) : Except Err Unit :=
  match act with
  | Except.ok _ => Except.ok ()
  | Except.error _ => Except.ok ()

/-- The `cleanup` helper of `streamResult`.  `closeAct` is the behaviour of
`controller.close()` when a controller was passed (`none` models the
controller-less call from the `cancel` handler); `cancelAct` is the behaviour
of `reader.cancel()`.  Each call is wrapped in its own `try/catch` with an
empty handler; if the first (impossibly) escaped, the second would be
skipped, which the sequencing here mirrors. -/
def cleanup (closeAct : Option (Except Err Unit)) (cancelAct : Except Err Unit) :
    Except Err Unit :=
  match closeAct with
  | some act =>
      match tryIgnore act with
      | Except.ok _ => tryIgnore cancelAct
      | Except.error e => Except.error e
  | none => tryIgnore cancelAct

/-- The `cancel()` handler of the stream built by `streamResult`: it calls
`cleanup()` with no controller. -/
def streamResultCancel (cancelAct : Except Err Unit) : Except Err Unit :=
  cleanup none cancelAct

/-- The `cancel()` handler of `SingleChunkReadableStream`: an empty body. -/
def singleChunkCancel : Except Err Unit := Except.ok ()

/-- The value returned by the caller-supplied LangChain function, as
classified by `stream`: one of the three supported shapes, or anything else
(`invalid` stands for every runtime value that is neither an
`IterableReadableStream`, nor a `BaseMessageChunk`, nor a string). -/
inductive LangChainReturnType
  | stream (u : Upstream)
  | chunk (c : BaseMessageChunk)
  | str (s : String)
  | invalid

/-- Result of `LangChainAdapter.stream` after the upstream function returned:
either an output stream (described by its effect trace) or a thrown error. -/
inductive StreamOutcome
  | ok (trace : List Ev)
  | thrown (msg : String)

/-- Whether a stream was produced. -/
def StreamOutcome.isOk : StreamOutcome → Bool
  | StreamOutcome.ok _ => true
  | StreamOutcome.thrown _ => false

/-- The classification in `LangChainAdapter.stream`: an
`IterableReadableStream` is proxied through `streamResult`; a
`BaseMessageChunk` is wrapped in a `SingleChunkReadableStream` built from
`result.lc_kwargs?.content` and `result.lc_kwargs?.function_call`; a string
becomes a `SingleChunkReadableStream` with the string as content and no
function call; anything else throws. -/
def streamDispatch : LangChainReturnType → StreamOutcome
  | LangChainReturnType.stream u => StreamOutcome.ok (streamResultTrace u)
  | LangChainReturnType.chunk c =>
      StreamOutcome.ok (singleChunkStart (c.lc_kwargs.bind fun k => k.content)
        (c.lc_kwargs.bind fun k => k.function_call))
  | LangChainReturnType.str s => StreamOutcome.ok (singleChunkStart (some s) none)
  | LangChainReturnType.invalid =>
      StreamOutcome.thrown "Invalid return type from LangChain function."

/-- One conversational turn of the incoming request's `messages` array. -/
structure Turn where
  role : String
  content : String
deriving DecidableEq

/-- The LangChain message values `transformProps` constructs. -/
inductive BaseMessage
  | human (content : String)
  | ai (content : String)
  | system (content : String)
deriving DecidableEq

/-- The `if/else if` chain in `transformProps`' loop: which LangChain message
(if any) is pushed for one turn. -/
def mapMessage (t : Turn) : Option BaseMessage :=
  if t.role = "user" then some (BaseMessage.human t.content)
  else if t.role = "assistant" then some (BaseMessage.ai t.content)
  else if t.role = "system" then some (BaseMessage.system t.content)
  else none

/-- The loop of `transformProps`: walk the turns in order, pushing the mapped
message when one of the three roles matches and silently skipping the turn
otherwise. -/
def transformMessages : List Turn → List BaseMessage
  | [] => []
  | t :: rest =>
      match mapMessage t with
      | some m => m :: transformMessages rest
      | none => transformMessages rest

/-- A JavaScript array value on the heap: either an array of request turns or
an array of constructed LangChain messages. -/
inductive ArrVal
  | turns (ts : List Turn)
  | langchainMessages (ms : List BaseMessage)
deriving DecidableEq

/-- The heap of array objects; references are indices. -/
structure Heap where
  arrays : List ArrVal
deriving DecidableEq

/-- Dereference an array. -/
def Heap.lookup (h : Heap) (r : Nat) : Option ArrVal :=
  h.arrays.get? r

/-- Allocate a fresh array, returning the new heap and the new reference.
Existing references are untouched. -/
def Heap.alloc (h : Heap) (v : ArrVal) : Heap × Nat :=
  (⟨h.arrays ++ [v]⟩, h.arrays.length)

/-- The adapter's view of the request object: the `messages` field (a
reference to an array on the heap, or absent) and the remaining fields, which
the adapter never interprets. -/
structure PropsObj where
  messagesRef : Option Nat
  rest : List (String × String)
deriving DecidableEq

/-- `transformProps`: make a shallow copy (`Object.assign(\x7b\x7d, props)` — the
`rest` fields and, initially, the `messages` reference are copied as-is);
when a `messages` array is present, build the new LangChain message array
with the loop and point the copy's `messages` field at a freshly allocated
array, leaving the original array untouched.  When the field is absent, or
does not hold an array of turns, the copy keeps whatever the original field
held. -/
def transformProps (h : Heap) (p : PropsObj) : Heap × PropsObj :=
  match p.messagesRef with
  | none => (h, ⟨none, p.rest⟩)
  | some r =>
    match h.lookup r with
    | some (ArrVal.turns ts) =>
        let allocated := h.alloc (ArrVal.langchainMessages (transformMessages ts))
        (allocated.1, ⟨some allocated.2, p.rest⟩)
    | _ => (h, ⟨some r, p.rest⟩)

/-- Whether a character list starts with the given pattern. -/
def startsWithChars : List Char → List Char → Bool
  | [], _ => true
  | _ :: _, [] => false
  | a :: as, b :: bs => a == b && startsWithChars as bs

/-- Whether a character list contains the given pattern as a contiguous run. -/
def charsContain (sub : List Char) : List Char → Bool
  | [] => startsWithChars sub []
  | c :: cs => startsWithChars sub (c :: cs) || charsContain sub cs

/-- Exact substring test on strings, used to state which JSON keys occur in
an encoded frame. -/
def containsSubstring (s sub : String) : Bool :=
  charsContain sub.data s.data

/-- A sample upstream fragment with content `"a"` and no function call. -/
def fragmentA : BaseMessageChunk := ⟨some ⟨some "a", none, none⟩⟩

/-- A sample upstream fragment with content `"b"` and no function call. -/
def fragmentB : BaseMessageChunk := ⟨some ⟨some "b", none, none⟩⟩

/-- The wire frame expected for content `"a"`. -/
def frameA : String :=
  "data: \x7b\"choices\":[\x7b\"delta\":\x7b\"role\":\"assistant\",\"content\":\"a\"\x7d\x7d]\x7d\n\n"

/-- The wire frame expected for content `"b"`. -/
def frameB : String :=
  "data: \x7b\"choices\":[\x7b\"delta\":\x7b\"role\":\"assistant\",\"content\":\"b\"\x7d\x7d]\x7d\n\n"

/-- The wire frame expected for content `"hello"`. -/
def helloFrame : String :=
  "data: \x7b\"choices\":[\x7b\"delta\":\x7b\"role\":\"assistant\",\"content\":\"hello\"\x7d\x7d]\x7d\n\n"

/-- The wire frame expected in single-shot mode when the message had no
content: the `content` key is present with the empty string. -/
def emptyContentFrame : String :=
  "data: \x7b\"choices\":[\x7b\"delta\":\x7b\"role\":\"assistant\",\"content\":\"\"\x7d\x7d]\x7d\n\n"

/-- The wire frame expected in stream-pull mode for a fragment with no
content: the `content` key is omitted. -/
def noContentFrame : String :=
  "data: \x7b\"choices\":[\x7b\"delta\":\x7b\"role\":\"assistant\"\x7d\x7d]\x7d\n\n"

/-! ## Helper lemmas -/

theorem frames_append (t1 t2 : List Ev) : frames (t1 ++ t2) = frames t1 ++ frames t2 := by
  simp [frames, List.filterMap_append]

theorem pullLoop_map_value (fs : List BaseMessageChunk) (tail : List ReadResult) :
    pullLoop (fs.map ReadResult.value ++ tail) =
      fs.map (fun c => Ev.enqueue (chunkFrame c)) ++ pullLoop tail := by
  induction fs with
  | nil => rfl
  | cons c rest ih => simp [pullLoop, ih]

theorem streamResultTrace_eos (fs : List BaseMessageChunk) :
    streamResultTrace ⟨fs, Terminator.eos⟩ =
      fs.map (fun c => Ev.enqueue (chunkFrame c)) ++
        [Ev.enqueue doneFrame, Ev.closeSink, Ev.cancelReader] := by
  rw [streamResultTrace, upstreamReads, pullLoop_map_value]
  rfl

theorem streamResultTrace_failure (fs : List BaseMessageChunk) (e : Err) :
    streamResultTrace ⟨fs, Terminator.failure e⟩ =
      fs.map (fun c => Ev.enqueue (chunkFrame c)) ++
        [Ev.streamError e, Ev.closeSink, Ev.cancelReader] := by
  rw [streamResultTrace, upstreamReads, pullLoop_map_value]
  rfl

theorem frames_map_enqueue (fs : List BaseMessageChunk) :
    frames (fs.map fun c => Ev.enqueue (chunkFrame c)) = fs.map chunkFrame := by
  induction fs with
  | nil => rfl
  | cons c rest ih => simpa [frames, List.filterMap_cons] using ih

theorem frames_trace_eos (fs : List BaseMessageChunk) :
    frames (streamResultTrace ⟨fs, Terminator.eos⟩) = fs.map chunkFrame ++ [doneFrame] := by
  rw [streamResultTrace_eos, frames_append, frames_map_enqueue]
  rfl

theorem frames_trace_failure (fs : List BaseMessageChunk) (e : Err) :
    frames (streamResultTrace ⟨fs, Terminator.failure e⟩) = fs.map chunkFrame := by
  rw [streamResultTrace_failure, frames_append, frames_map_enqueue]
  simp [frames]

theorem framePayload_ne_doneFrame (content : Option String) (fc : Option FunctionCall) :
    framePayload content fc ≠ doneFrame := by
  intro h
  have h1 : (framePayload content fc).data = doneFrame.data := by rw [h]
  rw [framePayload, chunkJson, doneFrame] at h1
  simp only [String.data_append] at h1
  simp [List.cons_append, List.append_assoc] at h1

theorem count_done_map_chunkFrame (fs : List BaseMessageChunk) :
    (fs.map chunkFrame).count doneFrame = 0 := by
  rw [List.count_eq_zero]
  intro hmem
  rcases List.mem_map.mp hmem with ⟨c, _, hc⟩
  exact framePayload_ne_doneFrame (chunkContent c) (chunkFunctionCall c) hc

/-! ## Claim theorems -/

/-- C1 (counterexample): the claim quantifies over every upstream behaviour,
but when the very first upstream read fails the adapter's output stream
signals a stream error and emits no frame at all — in particular no terminal
sentinel — so the emitted frame sequence does not consist of content frames
followed by exactly one terminal sentinel. -/
theorem upstream_failure_emits_no_sentinel :
    streamResultTrace ⟨[], Terminator.failure "boom"⟩ =
      [Ev.streamError "boom", Ev.closeSink, Ev.cancelReader] ∧
    frames (streamResultTrace ⟨[], Terminator.failure "boom"⟩) = [] ∧
    (frames (streamResultTrace ⟨[], Terminator.failure "boom"⟩)).count doneFrame = 0 :=
  ⟨rfl, rfl, rfl⟩

/-- C1 (amended): every output stream emits zero or more content frames and
at most one terminal sentinel, with no frame after the sentinel; when the
upstream signals a clean end-of-sequence — and always in single-shot mode —
exactly one terminal sentinel is emitted, as the final frame; when an
upstream read fails, the stream errors out without emitting the sentinel. -/
theorem sentinel_unique_and_terminal :
    (∀ fs, frames (streamResultTrace ⟨fs, Terminator.eos⟩) = fs.map chunkFrame ++ [doneFrame]) ∧
    (∀ fs, (frames (streamResultTrace ⟨fs, Terminator.eos⟩)).count doneFrame = 1) ∧
    (∀ fs e, (frames (streamResultTrace ⟨fs, Terminator.failure e⟩)).count doneFrame = 0) ∧
    (∀ content fc,
      frames (singleChunkStart content fc) =
        [framePayload (some (content.getD "")) fc, doneFrame] ∧
      (frames (singleChunkStart content fc)).count doneFrame = 1) := by
  refine ⟨frames_trace_eos, fun fs => ?_, fun fs e => ?_, fun content fc => ⟨rfl, ?_⟩⟩
  · rw [frames_trace_eos, List.count_append, count_done_map_chunkFrame]
    rfl
  · rw [frames_trace_failure, count_done_map_chunkFrame]
  · show List.count doneFrame [framePayload (some (content.getD "")) fc, doneFrame] = 1
    rw [List.count_cons, List.count_cons, List.count_nil]
    simp [framePayload_ne_doneFrame (some (content.getD "")) fc]

/-- C2: pulling the stream built over an upstream yielding fragments `"a"`
then `"b"` then end-of-sequence produces exactly the records content `"a"`,
content `"b"`, then the sentinel, in order; the upstream reader is cancelled
after the sentinel is enqueued (trace position 4, after the third record at
position 2) and before completion becomes observable to the downstream
consumer (which happens only after the whole producer trace, since `pull`
resolves only after `cleanup` has been awaited). -/
theorem stream_pull_ab_order_and_cursor_release :
    streamResultTrace ⟨[fragmentA, fragmentB], Terminator.eos⟩ =
      [Ev.enqueue frameA, Ev.enqueue frameB, Ev.enqueue doneFrame,
       Ev.closeSink, Ev.cancelReader] ∧
    frames (streamResultTrace ⟨[fragmentA, fragmentB], Terminator.eos⟩) =
      [frameA, frameB, doneFrame] ∧
    (streamResultTrace ⟨[fragmentA, fragmentB], Terminator.eos⟩).indexOf
      (Ev.enqueue doneFrame) = 2 ∧
    (streamResultTrace ⟨[fragmentA, fragmentB], Terminator.eos⟩).indexOf Ev.cancelReader = 4 ∧
    (streamResultTrace ⟨[fragmentA, fragmentB], Terminator.eos⟩).indexOf Ev.cancelReader <
      consumerCompletionIndex (streamResultTrace ⟨[fragmentA, fragmentB], Terminator.eos⟩) :=
  ⟨rfl, rfl, rfl, rfl, by decide⟩

/-- C3: single-shot mode enqueues exactly two frames, in order — one content
frame and the sentinel — and then closes the sink, after which nothing more
happens; with content `"hello"` and no function call, the content frame is
the exact wire record with `role:"assistant"`, `content:"hello"`, and no
`function_call` key. -/
theorem single_shot_exactly_two_frames :
    (∀ content fc, singleChunkStart content fc =
        [Ev.enqueue (framePayload (some (content.getD "")) fc),
         Ev.enqueue doneFrame, Ev.closeSink]) ∧
    singleChunkStart (some "hello") none =
      [Ev.enqueue helloFrame, Ev.enqueue doneFrame, Ev.closeSink] ∧
    frames (singleChunkStart (some "hello") none) = [helloFrame, doneFrame] ∧
    containsSubstring helloFrame "\"role\":\"assistant\"" = true ∧
    containsSubstring helloFrame "\"content\":\"hello\"" = true ∧
    containsSubstring helloFrame "function_call" = false :=
  ⟨fun _ _ => rfl, rfl, rfl, rfl, rfl, rfl⟩

/-- C4: in stream-pull mode each non-terminal upstream read contributes
exactly one enqueued content frame, frames reach the consumer in the exact
order the fragments were read (strict FIFO), and the terminal sentinel is
always the last frame; the code achieves this by looping internally across
reads inside one pull, which the specification expressly permits. -/
theorem stream_pull_fifo_one_frame_per_read :
    (∀ fs, streamResultTrace ⟨fs, Terminator.eos⟩ =
        fs.map (fun c => Ev.enqueue (chunkFrame c)) ++
          [Ev.enqueue doneFrame, Ev.closeSink, Ev.cancelReader]) ∧
    (∀ fs e, streamResultTrace ⟨fs, Terminator.failure e⟩ =
        fs.map (fun c => Ev.enqueue (chunkFrame c)) ++
          [Ev.streamError e, Ev.closeSink, Ev.cancelReader]) ∧
    (∀ fs, frames (streamResultTrace ⟨fs, Terminator.eos⟩) = fs.map chunkFrame ++ [doneFrame]) :=
  ⟨streamResultTrace_eos, streamResultTrace_failure, frames_trace_eos⟩

/-- C5: when the upstream read of the second fragment fails after `"a"` was
delivered, the stream (which was returned successfully — no error escapes
the adapter call) has emitted exactly the `"a"` content frame, then signals
a stream error, with no sentinel and no further frames; cleanup runs and the
reader is cancelled exactly once, and a further cleanup invocation swallows
the error a second cancel of the released cursor raises. -/
theorem upstream_read_failure_surfaces_stream_error :
    streamDispatch (LangChainReturnType.stream ⟨[fragmentA], Terminator.failure "read failed"⟩) =
      StreamOutcome.ok
        [Ev.enqueue frameA, Ev.streamError "read failed", Ev.closeSink, Ev.cancelReader] ∧
    frames (streamResultTrace ⟨[fragmentA], Terminator.failure "read failed"⟩) = [frameA] ∧
    (streamResultTrace ⟨[fragmentA], Terminator.failure "read failed"⟩).count
      Ev.cancelReader = 1 ∧
    (frames (streamResultTrace ⟨[fragmentA], Terminator.failure "read failed"⟩)).count
      doneFrame = 0 ∧
    cleanup none (Except.error "already released") = Except.ok () :=
  ⟨rfl, rfl, rfl, rfl, rfl⟩

/-- C6: `cleanup` never raises, whatever the host's `controller.close()` and
`reader.cancel()` do (succeed or throw) and whether or not a controller was
passed; the stream's `cancel` handler (which runs `cleanup` without a
controller, e.g. on cancellation before any pull) and the single-chunk
stream's empty `cancel` handler never raise either. -/
theorem cleanup_never_raises :
    ∀ (closeAct cancelAct : Except Err Unit),
      cleanup (some closeAct) cancelAct = Except.ok () ∧
      cleanup none cancelAct = Except.ok () ∧
      streamResultCancel cancelAct = Except.ok () ∧
      singleChunkCancel = Except.ok () := by
  intro closeAct cancelAct
  cases closeAct <;> cases cancelAct <;>
    exact ⟨rfl, rfl, rfl, rfl⟩

/-- C7: the request transformation maps role `user` to a `HumanMessage`,
`assistant` to an `AIMessage`, `system` to a `SystemMessage`, is a list
homomorphism (so recognized turns keep their original relative order), and
silently drops any turn whose role is none of the three. -/
theorem transformProps_role_mapping :
    (∀ c, transformMessages [⟨"user", c⟩] = [BaseMessage.human c]) ∧
    (∀ c, transformMessages [⟨"assistant", c⟩] = [BaseMessage.ai c]) ∧
    (∀ c, transformMessages [⟨"system", c⟩] = [BaseMessage.system c]) ∧
    (∀ l r, transformMessages (l ++ r) = transformMessages l ++ transformMessages r) ∧
    (∀ (t : Turn) l r, t.role ≠ "user" → t.role ≠ "assistant" → t.role ≠ "system" →
      transformMessages (l ++ t :: r) = transformMessages (l ++ r)) := by
  have hfm : ∀ ts, transformMessages ts = ts.filterMap mapMessage := by
    intro ts
    induction ts with
    | nil => rfl
    | cons t rest ih =>
        rw [transformMessages, List.filterMap_cons]
        cases mapMessage t <;> simp [ih]
  have homo : ∀ l r, transformMessages (l ++ r) =
      transformMessages l ++ transformMessages r := by
    intro l r
    rw [hfm, hfm, hfm, List.filterMap_append]
  refine ⟨fun c => rfl, fun c => rfl, fun c => rfl, homo, ?_⟩
  intro t l r h1 h2 h3
  rw [homo, homo]
  have hdrop : transformMessages (t :: r) = transformMessages r := by
    simp only [transformMessages, mapMessage, if_neg h1, if_neg h2, if_neg h3]
  rw [hdrop]

/-- Witness for C7: a concrete history where the `tool` turn is dropped and
the recognized turns survive in order. -/
theorem transformProps_role_mapping_witness :
    (⟨"tool", "x"⟩ : Turn).role ≠ "user" ∧
    transformMessages ([⟨"user", "a"⟩] ++ (⟨"tool", "x"⟩ : Turn) :: [⟨"assistant", "b"⟩]) =
      transformMessages ([⟨"user", "a"⟩] ++ [⟨"assistant", "b"⟩]) :=
  ⟨by decide,
   transformProps_role_mapping.2.2.2.2 ⟨"tool", "x"⟩ [⟨"user", "a"⟩] [⟨"assistant", "b"⟩]
     (by decide) (by decide) (by decide)⟩

/-- C8: when the value returned by the LangChain function matches none of
the three supported shapes the adapter throws
`Invalid return type from LangChain function.` and no stream is produced. -/
theorem invalid_result_throws_no_stream :
    streamDispatch LangChainReturnType.invalid =
      StreamOutcome.thrown "Invalid return type from LangChain function." ∧
    StreamOutcome.isOk (streamDispatch LangChainReturnType.invalid) = false :=
  ⟨rfl, rfl⟩

/-- C9: `transformProps` passes every field other than `messages` through to
the transformed copy unchanged, and never mutates the caller's original
request: the heap after the call still contains every previously allocated
array — in particular the original `messages` array of turns — unchanged
(the transformed `messages` list lives in a freshly allocated array). -/
theorem transformProps_preserves_original :
    ∀ (h : Heap) (p : PropsObj),
      ((transformProps h p).2).rest = p.rest ∧
      ((transformProps h p).1).arrays.take h.arrays.length = h.arrays := by
  intro h p
  rcases hm : p.messagesRef with _ | r
  · simp [transformProps, hm, List.take_length]
  · rcases hl : h.lookup r with _ | v
    · simp [transformProps, hm, hl, List.take_length]
    · cases v with
      | turns ts => simp [transformProps, hm, hl, Heap.alloc, List.take_left]
      | langchainMessages ms => simp [transformProps, hm, hl, List.take_length]

/-- C10: a `SingleMessage` whose content is absent is encoded with the
default empty string, so the single-shot content frame always carries a
`content` key (here with value the empty string), whereas in stream-pull
mode a fragment with absent content yields a frame whose JSON omits the
`content` key entirely. -/
theorem content_key_single_shot_vs_stream_pull :
    streamDispatch (LangChainReturnType.chunk ⟨some ⟨none, none, none⟩⟩) =
      StreamOutcome.ok
        [Ev.enqueue emptyContentFrame, Ev.enqueue doneFrame, Ev.closeSink] ∧
    containsSubstring emptyContentFrame "\"content\":\"\"" = true ∧
    (∀ fc, singleChunkStart none fc =
      [Ev.enqueue (framePayload (some "") fc), Ev.enqueue doneFrame, Ev.closeSink]) ∧
    streamResultTrace ⟨[⟨some ⟨none, none, none⟩⟩], Terminator.eos⟩ =
      [Ev.enqueue noContentFrame, Ev.enqueue doneFrame, Ev.closeSink, Ev.cancelReader] ∧
    containsSubstring noContentFrame "\"content\"" = false :=
  ⟨rfl, rfl, fun _ => rfl, rfl, rfl⟩
